import Mathlib

/-!
Shallow embedding of `nova/rpc/impl_kombu.py`: the AMQP RPC transport
(reply protocol, multicall client iteration, consumer ack policy, context
packing, the consume drain loop, connection scoping, and the reply path).

Python strings are embedded as `List Char` (so `startswith` is
`List.isPrefixOf` and `key[9:]` is `List.drop 9`); Python dicts appearing
in the transport are association lists with insertion-order `update`
semantics; machine-level wire encoding is abstracted by a `serializable`
predicate on values.
-/

namespace ImplKombu

/-- Python strings, embedded as their character sequences. -/
abbrev Str := List Char

/-- Scalar payload values. -/
inductive Scalar where
  | null
  | bool (b : Bool)
  | int (n : Int)
  | str (s : Str)
deriving DecidableEq, Repr

/-- Wire-level values carried in message envelopes: the JSON-ish payload
universe plus `obj`, a plain Python instance (something the wire codec
cannot encode; its `attrs` are the instance `__dict__`).  The transport
treats payloads opaquely, so the universe is cut off at one container
level: containers hold scalars. -/
inductive Value where
  | null
  | bool (b : Bool)
  | int (n : Int)
  | str (s : Str)
  | list (elems : List Scalar)
  | dict (entries : List (Str × Scalar))
  | obj (attrs : List (Str × Scalar))
deriving DecidableEq, Repr

/-- Python truthiness (`if x:`) for embedded values. -/
def truthy : Value → Bool
  | .null => false
  | .bool b => b
  | .int n => n != 0
  | .str s => !s.isEmpty
  | .list xs => !xs.isEmpty
  | .dict kvs => !kvs.isEmpty
  | .obj _ => true

/-- A message mapping (Python dict of string keys). -/
abbrev Dict := List (Str × Value)

/-- `d.get(k, dflt)` / `d.pop(k, dflt)` value lookup: first matching key. -/
def lookupD : Dict → Str → Value → Value
  | [], _, dflt => dflt
  | kv :: rest, k, dflt => if kv.1 = k then kv.2 else lookupD rest k dflt

/-- `d.pop(k, ...)`: drop the (unique) entry with key `k`, if present. -/
def popKey : Dict → Str → Dict
  | [], _ => []
  | kv :: rest, k => if kv.1 = k then rest else kv :: popKey rest k

/-- `d[k] = v`: overwrite in place if the key exists, else append. -/
def setKey : Dict → Str → Value → Dict
  | [], k, v => [(k, v)]
  | kv :: rest, k, v => if kv.1 = k then (k, v) :: rest else kv :: setKey rest k v

/-- `m.update(upd)`: assign every pair of `upd` into `m`, in order. -/
def dictUpdate (m : Dict) (upd : Dict) : Dict :=
  upd.foldl (fun acc kv => setKey acc kv.1 kv.2) m

/-- The reserved `'_context_'` key marker (9 characters). -/
def ctxTag : Str := "_context_".data

/-- The reserved `'_msg_id'` envelope key. -/
def msgIdKey : Str := "_msg_id".data

/-- The `'msg_id'` kwarg popped by `RpcContext.__init__`. -/
def msgIdField : Str := "msg_id".data

/-- The marshalled failure triple placed in a reply envelope:
`(failure[0].__name__, str(failure[1]), traceback.format_exception(*failure))`. -/
structure Failure where
  kind : Str
  message : Str
  tb : List Str
deriving DecidableEq, Repr

/-- A raised Python exception, abstracted to exactly the three pieces of
reflective data `msg_reply` marshals out of `sys.exc_info()`. -/
structure PyException where
  typeName : Str
  strForm : Str
  formattedTb : List Str
deriving DecidableEq, Repr

/-- `failure = (failure[0].__name__, str(failure[1]), tb)` in `msg_reply`. -/
def marshalFailure (e : PyException) : Failure :=
  ⟨e.typeName, e.strForm, e.formattedTb⟩

/-- The reply envelope `{'result': ..., 'failure': ...}`; `none` is the
JSON `null` failure. -/
structure ReplyEnvelope where
  result : Value
  failure : Option Failure
deriving DecidableEq, Repr

/-- `RpcContext` (lines 596-604): `__init__` pops `msg_id` from the kwargs
and keeps it; the base `RequestContext` state is modelled from the spec as
the flat field mapping exposed by `to_dict`/`from_dict`. -/
structure RpcContext where
  msg_id : Value
  fields : Dict
deriving DecidableEq, Repr

/-- Modelled from the spec: `context.RequestContext.to_dict` (the base class
is not under `src/`) produces the mapping of flat field name to value;
`RpcContext` adds no override, so `msg_id` is not part of it. -/
def RpcContext.to_dict (self : RpcContext) : Dict :=
  self.fields

/-- `RpcContext.from_dict`: the constructor pops `'msg_id'` from the kwargs
(source lines 597-599); the remaining flat fields become the base
`RequestContext` state (modelled from the spec). -/
def RpcContext.from_dict (d : Dict) : RpcContext :=
  { msg_id := lookupD d msgIdField Value.null, fields := popKey d msgIdField }

/-- `_pack_context(msg, context)` (lines 582-593): move every `to_dict`
field into a `'_context_%s' % key` entry of the message mapping. -/
def _pack_context (msg : Dict) (context : RpcContext) : Dict :=
  let context_d := (RpcContext.to_dict context).map (fun kv => (ctxTag ++ kv.1, kv.2))
  dictUpdate msg context_d

/-- `_unpack_context(msg)` (lines 567-579): pop every key starting with
`'_context_'` into `context_dict` under the key minus its first 9
characters, then `context_dict['msg_id'] = msg.pop('_msg_id', None)` and
rebuild the context with `RpcContext.from_dict`.  Returns the context and
what remains of the message. -/
def _unpack_context (msg : Dict) : RpcContext × Dict :=
  let context_dict := (msg.filter (fun kv => ctxTag.isPrefixOf kv.1)).foldl
      (fun d kv => setKey d (kv.1.drop 9) kv.2) []
  let remaining := msg.filter (fun kv => !(ctxTag.isPrefixOf kv.1))
  let msgIdVal := lookupD remaining msgIdKey Value.null
  let remaining2 := popKey remaining msgIdKey
  (RpcContext.from_dict (setKey context_dict msgIdField msgIdVal), remaining2)

/-- Whether the wire codec can encode a value: a plain instance (`obj`)
is not JSON-encodable, everything else in the payload universe is. -/
def serializable : Value → Bool
  | .obj _ => false
  | _ => true

/-- `str()`-style rendering used by the stringification fallback
(`repr(v)` on attribute values); only its existence matters to the
transport, so the rendering is kept simple. -/
def pyRepr : Scalar → Str
  | .null => "None".data
  | .bool true => "True".data
  | .bool false => "False".data
  | .int n => (toString n).data
  | .str s => s

/-- `reply.__dict__` of a plain instance (empty for non-instances, which
have no `__dict__` in this universe). -/
def objDict : Value → List (Str × Scalar)
  | .obj attrs => attrs
  | _ => []

/-- The fallback payload of `msg_reply`:
`dict((k, repr(v)) for k, v in reply.__dict__.iteritems())`. -/
def shallowStringify (reply : Value) : Value :=
  .dict ((objDict reply).map (fun kv => (kv.1, Scalar.str (pyRepr kv.2))))

/-- Wire-level errors raised while publishing. -/
inductive WireError where
  | serializationError
deriving DecidableEq, Repr

/-- Whether the codec can encode a reply envelope: the failure triple is
made of strings and always encodes, so only the result matters. -/
def ReplyEnvelope.wireSerializable (m : ReplyEnvelope) : Bool :=
  serializable m.result

/-- `conn.direct_send(msg_id, msg)`: publish one direct message.  The
kombu producer encodes the envelope with the wire codec here; a value the
codec cannot encode raises a serialization error (external collaborator,
modelled per the spec's wire-codec contract). -/
def direct_send (msg_id : Value) (msg : ReplyEnvelope) :
    Except WireError (Value × ReplyEnvelope) :=
  if msg.wireSerializable then .ok (msg_id, msg) else .error .serializationError

/-- The `try` body of `msg_reply` (lines 717-722) builds
`msg = {'result': reply, 'failure': failure}`.  This is a Python dict
literal with string keys: constructing it only stores references and can
never raise `TypeError`, so the result is always `ok`. -/
def tryBuildEnvelope (reply : Value) (failure : Option Failure) :
    Except Unit ReplyEnvelope :=
  .ok ⟨reply, failure⟩

/-- `msg_reply(msg_id, reply, failure)` (lines 703-723): marshal the
failure triple, build the envelope (falling back to shallow
stringification if the dict construction raised `TypeError`), then
publish with `conn.direct_send` — which sits outside the `try`. -/
def msg_reply (msg_id : Value) (reply : Value) (failure : Option PyException) :
    Except WireError (Value × ReplyEnvelope) :=
  let failureM := failure.map marshalFailure
  let msg : ReplyEnvelope :=
    match tryBuildEnvelope reply failureM with
    | .ok m => m
    | .error _ => ⟨shallowStringify reply, failureM⟩
  direct_send msg_id msg

/-- The envelope a successful `msg_reply` publishes for one
`ctxt.reply(reply, failure)` call. -/
def msgReplyEnvelope (reply : Value) (failure : Option PyException) : ReplyEnvelope :=
  ⟨reply, failure.map marshalFailure⟩

/-- `RpcContext.reply` (lines 602-604): forward to `msg_reply` on the
stored `msg_id` when it is truthy, else do nothing.  Result: the list of
`(msg_id, envelope)` emissions this call produces. -/
def RpcContext.reply (self : RpcContext) (reply : Value) (failure : Option PyException) :
    List (Value × ReplyEnvelope) :=
  if truthy self.msg_id then [(self.msg_id, msgReplyEnvelope reply failure)] else []

/-- The observable outcome of `node_func(context=ctxt, **node_args)` as
`_process_data` sees it: the call raises, returns a plain value, or
returns a generator that yields `items` and then either finishes or
raises `err` mid-iteration. -/
inductive HandlerResult where
  | raises (e : PyException)
  | plain (v : Value)
  | gen (items : List Value) (err : Option PyException)
deriving DecidableEq, Repr

/-- `ProxyCallback._process_data` (lines 542-564): iterate a generator
result replying per item, or reply once with a plain result, then send
the `reply(None, None)` terminator; an exception anywhere in the `try`
is answered with a single `ctxt.reply(None, sys.exc_info())`.  Result:
the ordered `(msg_id, envelope)` emissions. -/
def ProxyCallback._process_data (ctxt : RpcContext) (r : HandlerResult) :
    List (Value × ReplyEnvelope) :=
  match r with
  | .raises e => ctxt.reply Value.null (some e)
  | .plain v => ctxt.reply v none ++ ctxt.reply Value.null none
  | .gen items none =>
      (items.map (fun x => ctxt.reply x none)).flatten ++ ctxt.reply Value.null none
  | .gen items (some e) =>
      (items.map (fun x => ctxt.reply x none)).flatten ++ ctxt.reply Value.null (some e)

/-- The remote error raised client-side: `RemoteError(*data['failure'])`. -/
structure RemoteError where
  exc_type : Str
  value : Str
  traceback : List Str
deriving DecidableEq, Repr

/-- `MulticallWaiter.__call__` (lines 618-623): the consume callback
stores a `RemoteError` built from the marshalled triple when
`data['failure']` is truthy (a non-null failure), else the result
value. -/
def MulticallWaiter.storeResult (data : ReplyEnvelope) : Except RemoteError Value :=
  match data.failure with
  | some f => .error ⟨f.kind, f.message, f.tb⟩
  | none => .ok data.result

/-- A reply envelope is the stream terminator `{result: null, failure: null}`. -/
def isTerminator (data : ReplyEnvelope) : Bool :=
  decide (data.result = Value.null ∧ data.failure = none)

/-- What client-side iteration of a `MulticallWaiter` does with the reply
envelopes delivered on its `msg_id` queue, in order: the values yielded
so far, and whether iteration is still blocked waiting for more replies
(`blocked`), finished via the terminator (`ended`, the waiter marked
itself done), or aborted by raising a remote error (`failed`, the waiter
marked itself done). -/
inductive MulticallOutcome where
  | blocked (yielded : List Value)
  | ended (yielded : List Value)
  | failed (yielded : List Value) (e : RemoteError)
deriving DecidableEq, Repr

/-- Prepend one yielded value to an iteration outcome. -/
def MulticallOutcome.consYield (v : Value) : MulticallOutcome → MulticallOutcome
  | .blocked ys => .blocked (v :: ys)
  | .ended ys => .ended (v :: ys)
  | .failed ys e => .failed (v :: ys) e

/-- `done()` was called: iteration is no longer waiting on the broker. -/
def MulticallOutcome.isDone : MulticallOutcome → Bool
  | .blocked _ => false
  | .ended _ => true
  | .failed _ _ => true

/-- `MulticallWaiter.__iter__` (lines 625-637) driven over the incoming
reply envelopes: drain one event (processing one envelope through the
callback), then raise the stored `RemoteError`, stop on a `None` result,
or yield the result and continue. -/
def MulticallWaiter.iterate : List ReplyEnvelope → MulticallOutcome
  | [] => .blocked []
  | data :: rest =>
    match MulticallWaiter.storeResult data with
    | .error e => .failed [] e
    | .ok result =>
      if result = Value.null then .ended []
      else (MulticallWaiter.iterate rest).consYield result

/-- What `call` returns, given how draining the multicall iterator went. -/
inductive CallResult where
  | blockedForever
  | raised (e : RemoteError)
  | returned (v : Value)
deriving DecidableEq, Repr

/-- `call(context, topic, msg)` (lines 677-684): `rv = list(multicall(...))`,
return `None` if it is empty, else `rv[-1]`.  Draining re-raises a remote
error and blocks forever if the stream never terminates. -/
def call (msgs : List ReplyEnvelope) : CallResult :=
  match MulticallWaiter.iterate msgs with
  | .blocked _ => .blockedForever
  | .failed _ e => .raised e
  | .ended rv => .returned (rv.getLast?.getD Value.null)

/-- The message-mapping update performed by `cast` (lines 687-692):
`_pack_context(msg, context)` mutates the caller's dict in place; this is
the dict's value after the verb. -/
def cast_msg_update (context : RpcContext) (msg : Dict) : Dict :=
  _pack_context msg context

/-- The message-mapping update performed by `fanout_cast` (lines 695-700). -/
def fanout_cast_msg_update (context : RpcContext) (msg : Dict) : Dict :=
  _pack_context msg context

/-- The message-mapping update performed by `multicall` (lines 657-674):
`msg.update({'_msg_id': msg_id})` with the fresh id, then
`_pack_context(msg, context)`. -/
def multicall_msg_update (msg_id : Str) (context : RpcContext) (msg : Dict) : Dict :=
  _pack_context (dictUpdate msg [(msgIdKey, Value.str msg_id)]) context

/-- The decoded message object a channel hands to the consumer callback
(`channel.message_to_python(raw_message)`). -/
structure KombuMessage where
  payload : Value
deriving DecidableEq, Repr

/-- The inner `_callback` of `QueueBase.consume` (lines 86-89): decode the
raw delivery, call the user callback on the payload, and `message.ack()`
as the last step.  Result: the callback's outcome (an exception
propagates to the channel) and whether the ack was performed. -/
def QueueBase.consume_deliver {α : Type} (decode : α → KombuMessage)
    (cb : Value → Except PyException Unit) (raw : α) :
    Except PyException Unit × Bool :=
  let message := decode raw
  match cb message.payload with
  | .ok _ => (.ok (), true)
  | .error e => (.error e, false)

/-- One pass through `self.connection.drain_events()` inside
`Connection.consume`: either an event is drained or a connection error is
raised. -/
inductive DrainOutcome where
  | ev
  | err
deriving DecidableEq, Repr

/-- Where the drain loop of `Connection.consume` stands after processing a
finite prefix of drain outcomes: it raised `StopIteration` after `yields`
yields, or it is still running (blocked on the broker) having yielded
`yields` events so far. -/
inductive ConsumeResult where
  | terminated (yields : Nat)
  | pending (yields : Nat)
deriving DecidableEq, Repr

/-- Whether the drain loop has raised `StopIteration`. -/
def ConsumeResult.isTerminated : ConsumeResult → Bool
  | .terminated _ => true
  | .pending _ => false

/-- Truthiness of the `limit` argument: `None` and `0` are falsy. -/
def limitTruthy : Option Int → Bool
  | none => false
  | some n => n != 0

/-- The integer value of the `limit` argument (`0` for `None`). -/
def limitVal : Option Int → Int
  | none => 0
  | some n => n

/-- The loop body of `Connection.consume` (lines 384-399) over a finite
prefix of drain outcomes.  `iteration` is the `itertools.count(0)`
counter: before each yield the guard `if limit and iteration >= limit`
raises `StopIteration`; a connection error from `drain_events` is caught,
the connection reconnects, and the `while True` loop restarts the `for`
loop with a fresh counter. -/
def consumeLoop (limit : Option Int) (outs : List DrainOutcome) (iteration : Int)
    (yields : Nat) : ConsumeResult :=
  if limitTruthy limit = true ∧ limitVal limit ≤ iteration then
    .terminated yields
  else
    match outs with
    | [] => .pending yields
    | .ev :: rest => consumeLoop limit rest (iteration + 1) (yields + 1)
    | .err :: rest => consumeLoop limit rest 0 yields

/-- Python errors the drain loop can hit outside broker traffic. -/
inductive PyError where
  | indexError
deriving DecidableEq, Repr

/-- `Connection.consume(limit=None)` (lines 382-399): split the live
consumer list into `queues_head = self.queues[:-1]` (started `nowait`)
and `queues_tail = self.queues[-1]` (started blocking) — indexing `[-1]`
on an empty list raises `IndexError` before anything is yielded — then
run the drain loop. -/
def Connection.consume {α : Type} (queues : List α) (limit : Option Int)
    (outs : List DrainOutcome) : Except PyError ConsumeResult :=
  if queues.isEmpty then .error .indexError
  else .ok (consumeLoop limit outs 0 0)

/-- The slice of `Connection` state that `reset`/`close` touch:
which channel generation it holds, its live consumer list, and whether
`connection.release()` has been called. -/
structure KConnection where
  channelGen : Nat
  consumers : List Nat
  released : Bool
deriving DecidableEq, Repr

/-- `Connection.reset` (lines 367-371): `self.channel.close()`, open a
fresh channel, clear the consumer list. -/
def KConnection.reset (c : KConnection) : KConnection :=
  { c with channelGen := c.channelGen + 1, consumers := [] }

/-- `Connection.close` (lines 362-365): release the session. -/
def KConnection.closeConn (c : KConnection) : KConnection :=
  { c with released := true }

/-- `ConnectionContext` (lines 462-509): the scoped handle, holding an
optional connection and whether it came from the pool. -/
structure ConnectionContext where
  connection : Option KConnection
  pooled : Bool
deriving DecidableEq, Repr

/-- The state after a `ConnectionContext` operation: the handle, the pool
stack, and a non-pooled connection disposed of by `close`, if any. -/
structure DoneResult where
  ctx : ConnectionContext
  pool : List KConnection
  disposed : Option KConnection
deriving DecidableEq, Repr

/-- `ConnectionContext._done` (lines 474-490): if a connection is held,
a pooled handle resets it and pushes it back onto the pool stack, a
non-pooled handle closes it; either way the handle drops it. -/
def ConnectionContext._done (self : ConnectionContext) (pool : List KConnection) :
    DoneResult :=
  match self.connection with
  | none => ⟨self, pool, none⟩
  | some c =>
    if self.pooled then
      ⟨{ self with connection := none }, KConnection.reset c :: pool, none⟩
    else
      ⟨{ self with connection := none }, pool, some (KConnection.closeConn c)⟩

/-- How the `with` body finished when `__exit__(t, v, tb)` runs. -/
inductive ExitKind where
  | normal
  | unwind (e : PyException)
deriving DecidableEq, Repr

/-- `ConnectionContext.__exit__` (lines 492-494): runs on every scope exit
path — normal or error unwind — and ignores the exception info, always
calling `_done()`. -/
def ConnectionContext.scopeExit (self : ConnectionContext) (_k : ExitKind)
    (pool : List KConnection) : DoneResult :=
  self._done pool

/-! Helper lemmas about the dict operations and the reserved keys. -/

theorem setKey_fresh (m : Dict) (k : Str) (v : Value) (h : ∀ kv ∈ m, kv.1 ≠ k) :
    setKey m k v = m ++ [(k, v)] := by
  induction m with
  | nil => rfl
  | cons kv rest ih =>
    have hk : kv.1 ≠ k := h kv (List.mem_cons_self kv rest)
    simp only [setKey, if_neg hk, List.cons_append, List.cons.injEq, true_and]
    exact ih (fun kv2 h2 => h kv2 (List.mem_cons_of_mem kv h2))

theorem foldl_setKey_fresh (l : Dict) : ∀ (acc : Dict),
    (∀ kv ∈ l, ∀ kv2 ∈ acc, kv2.1 ≠ kv.1) → (l.map Prod.fst).Nodup →
    l.foldl (fun d kv => setKey d kv.1 kv.2) acc = acc ++ l := by
  induction l with
  | nil => intro acc _ _; simp
  | cons kv rest ih =>
    intro acc hfresh hnd
    simp only [List.map_cons, List.nodup_cons, List.mem_map] at hnd
    have h1 : setKey acc kv.1 kv.2 = acc ++ [kv] :=
      setKey_fresh acc kv.1 kv.2 (fun kv2 h2 => hfresh kv (List.mem_cons_self kv rest) kv2 h2)
    simp only [List.foldl_cons, h1]
    rw [ih (acc ++ [kv])]
    · simp
    · intro kv2 h2 kv3 h3
      rcases List.mem_append.mp h3 with h3a | h3b
      · exact hfresh kv2 (List.mem_cons_of_mem kv h2) kv3 h3a
      · have : kv3 = kv := by simpa using h3b
        subst this
        intro heq
        exact hnd.1 ⟨kv2, h2, heq.symm⟩
    · exact hnd.2

theorem dictUpdate_fresh (m upd : Dict)
    (hfresh : ∀ kv ∈ upd, ∀ kv2 ∈ m, kv2.1 ≠ kv.1)
    (hnd : (upd.map Prod.fst).Nodup) :
    dictUpdate m upd = m ++ upd :=
  foldl_setKey_fresh upd m hfresh hnd

theorem lookupD_of_fresh (l : Dict) (k : Str) (d : Value)
    (h : ∀ kv ∈ l, kv.1 ≠ k) : lookupD l k d = d := by
  induction l with
  | nil => rfl
  | cons kv rest ih =>
    simp only [lookupD, if_neg (h kv (List.mem_cons_self kv rest))]
    exact ih (fun kv2 h2 => h kv2 (List.mem_cons_of_mem kv h2))

theorem lookupD_append_right (l r : Dict) (k : Str) (d : Value)
    (h : ∀ kv ∈ l, kv.1 ≠ k) : lookupD (l ++ r) k d = lookupD r k d := by
  induction l with
  | nil => rfl
  | cons kv rest ih =>
    simp only [List.cons_append, lookupD, if_neg (h kv (List.mem_cons_self kv rest))]
    exact ih (fun kv2 h2 => h kv2 (List.mem_cons_of_mem kv h2))

theorem popKey_append_right (l r : Dict) (k : Str)
    (h : ∀ kv ∈ l, kv.1 ≠ k) : popKey (l ++ r) k = l ++ popKey r k := by
  induction l with
  | nil => rfl
  | cons kv rest ih =>
    simp only [List.cons_append, popKey, if_neg (h kv (List.mem_cons_self kv rest))]
    exact congrArg (fun t => kv :: t) (ih (fun kv2 h2 => h kv2 (List.mem_cons_of_mem kv h2)))

theorem ctxTag_len : ctxTag.length = 9 := by decide

theorem ctxTag_isPrefixOf_append (k : Str) : ctxTag.isPrefixOf (ctxTag ++ k) = true :=
  List.isPrefixOf_iff_prefix.mpr (List.prefix_append ctxTag k)

theorem drop9_tag_append (k : Str) : (ctxTag ++ k).drop 9 = k :=
  List.drop_left' ctxTag_len

theorem tag_append_ne_msgIdKey (k : Str) : ctxTag ++ k ≠ msgIdKey := by
  intro heq
  have hl := congrArg List.length heq
  rw [List.length_append, ctxTag_len] at hl
  have h7 : msgIdKey.length = 7 := by decide
  omega

theorem pack_context_fresh (msg : Dict) (ctxt : RpcContext)
    (hmsg : ∀ kv ∈ msg, ctxTag.isPrefixOf kv.1 = false)
    (hnd : (ctxt.fields.map Prod.fst).Nodup) :
    _pack_context msg ctxt
      = msg ++ ctxt.fields.map (fun kv => (ctxTag ++ kv.1, kv.2)) := by
  unfold _pack_context RpcContext.to_dict
  apply dictUpdate_fresh
  · intro kv hkv kv2 hkv2
    obtain ⟨kv0, _, rfl⟩ := List.mem_map.mp hkv
    intro heq
    have htrue : ctxTag.isPrefixOf kv2.1 = true := by
      rw [heq]; exact ctxTag_isPrefixOf_append kv0.1
    rw [hmsg kv2 hkv2] at htrue
    exact Bool.noConfusion htrue
  · have hmm : (ctxt.fields.map (fun kv => (ctxTag ++ kv.1, kv.2))).map Prod.fst
        = (ctxt.fields.map Prod.fst).map (fun t => ctxTag ++ t) := by
      simp [List.map_map]
    rw [hmm]
    exact hnd.map (List.append_right_injective ctxTag)

/-- C5: for every context whose `to_dict` form maps flat field names to
wire-serializable values (a plain request context: `msg_id` unset and no
field literally named `msg_id`), packing it into a message envelope free
of the reserved `_context_*` / `_msg_id` keys and then unpacking that
envelope on the server reconstructs an equal context:
`unpack(pack(ctx)) == ctx`. -/
theorem c5_unpack_pack_roundtrip (msg : Dict) (ctxt : RpcContext)
    (hmsg : ∀ kv ∈ msg, ctxTag.isPrefixOf kv.1 = false ∧ kv.1 ≠ msgIdKey)
    (hnd : (ctxt.fields.map Prod.fst).Nodup)
    (hmid : ctxt.msg_id = Value.null)
    (hf : ∀ kv ∈ ctxt.fields, kv.1 ≠ msgIdField) :
    (_unpack_context (_pack_context msg ctxt)).1 = ctxt := by
  have hpack : _pack_context msg ctxt
      = msg ++ ctxt.fields.map (fun kv => (ctxTag ++ kv.1, kv.2)) :=
    pack_context_fresh msg ctxt (fun kv h => (hmsg kv h).1) hnd
  rw [hpack]
  simp only [_unpack_context]
  have hfilt1 : (msg ++ ctxt.fields.map (fun kv => (ctxTag ++ kv.1, kv.2))).filter
      (fun kv => ctxTag.isPrefixOf kv.1)
      = ctxt.fields.map (fun kv => (ctxTag ++ kv.1, kv.2)) := by
    rw [List.filter_append]
    have h1 : msg.filter (fun kv => ctxTag.isPrefixOf kv.1) = [] :=
      List.filter_eq_nil_iff.mpr (fun kv h => by simp [(hmsg kv h).1])
    have h2 : (ctxt.fields.map (fun kv => (ctxTag ++ kv.1, kv.2))).filter
        (fun kv => ctxTag.isPrefixOf kv.1)
        = ctxt.fields.map (fun kv => (ctxTag ++ kv.1, kv.2)) :=
      List.filter_eq_self.mpr (by
        intro kv h
        obtain ⟨kv0, _, rfl⟩ := List.mem_map.mp h
        exact ctxTag_isPrefixOf_append kv0.1)
    rw [h1, h2, List.nil_append]
  have hfilt2 : (msg ++ ctxt.fields.map (fun kv => (ctxTag ++ kv.1, kv.2))).filter
      (fun kv => !(ctxTag.isPrefixOf kv.1)) = msg := by
    rw [List.filter_append]
    have h1 : msg.filter (fun kv => !(ctxTag.isPrefixOf kv.1)) = msg :=
      List.filter_eq_self.mpr (fun kv h => by simp [(hmsg kv h).1])
    have h2 : (ctxt.fields.map (fun kv => (ctxTag ++ kv.1, kv.2))).filter
        (fun kv => !(ctxTag.isPrefixOf kv.1)) = [] :=
      List.filter_eq_nil_iff.mpr (by
        intro kv h
        obtain ⟨kv0, _, rfl⟩ := List.mem_map.mp h
        simp [ctxTag_isPrefixOf_append kv0.1])
    rw [h1, h2, List.append_nil]
  rw [hfilt1, hfilt2]
  have hfold : (ctxt.fields.map (fun kv => (ctxTag ++ kv.1, kv.2))).foldl
      (fun d kv => setKey d (kv.1.drop 9) kv.2) [] = ctxt.fields := by
    rw [List.foldl_map]
    have hfun : (fun (d : Dict) (kv0 : Str × Value) =>
          setKey d ((ctxTag ++ kv0.1).drop 9) kv0.2)
        = fun d kv0 => setKey d kv0.1 kv0.2 := by
      funext d kv0; rw [drop9_tag_append]
    show ctxt.fields.foldl (fun d kv0 => setKey d ((ctxTag ++ kv0.1).drop 9) kv0.2) [] = _
    rw [hfun]
    have h := foldl_setKey_fresh ctxt.fields []
      (fun kv _ kv2 h2 => absurd h2 (List.not_mem_nil kv2)) hnd
    simpa using h
  rw [hfold]
  have hlook : lookupD msg msgIdKey Value.null = Value.null :=
    lookupD_of_fresh msg msgIdKey Value.null (fun kv h => (hmsg kv h).2)
  rw [hlook]
  have hset : setKey ctxt.fields msgIdField Value.null
      = ctxt.fields ++ [(msgIdField, Value.null)] :=
    setKey_fresh ctxt.fields msgIdField Value.null hf
  rw [hset]
  simp only [RpcContext.from_dict]
  have hl2 : lookupD (ctxt.fields ++ [(msgIdField, Value.null)]) msgIdField Value.null
      = Value.null := by
    rw [lookupD_append_right ctxt.fields _ _ _ hf]
    simp [lookupD]
  have hp2 : popKey (ctxt.fields ++ [(msgIdField, Value.null)]) msgIdField
      = ctxt.fields := by
    rw [popKey_append_right ctxt.fields _ _ hf]
    simp [popKey]
  rw [hl2, hp2]
  obtain ⟨mid, fields⟩ := ctxt
  simp only at hmid
  rw [hmid]

/-- Witness for C5: a concrete envelope and context round-trip. -/
theorem c5_unpack_pack_roundtrip_witness :
    (_unpack_context (_pack_context [(("method".data : Str), Value.str ("echo".data))]
        ⟨Value.null, [(("user".data : Str), Value.str ("u1".data))]⟩)).1
      = ⟨Value.null, [(("user".data : Str), Value.str ("u1".data))]⟩ :=
  c5_unpack_pack_roundtrip _ _ (by decide) (by decide) rfl (by decide)

/-- C10: the client verbs mutate the caller's message mapping in place:
`cast`, `fanout_cast` and `multicall` insert a `_context_<name>` entry for
every context field into the argument mapping, and `multicall`
additionally inserts the freshly generated `_msg_id` entry, so (whenever
the context has at least one field, or always for `multicall`) the
caller's dictionary differs after the verb returns.  Hypotheses: the
caller's mapping has no reserved keys and the context fields are a
well-formed dict (distinct keys). -/
theorem c10_client_verbs_mutate_msg (msg : Dict) (ctxt : RpcContext) (i : Str)
    (hmsg : ∀ kv ∈ msg, ctxTag.isPrefixOf kv.1 = false ∧ kv.1 ≠ msgIdKey)
    (hnd : (ctxt.fields.map Prod.fst).Nodup) :
    cast_msg_update ctxt msg
        = msg ++ ctxt.fields.map (fun kv => (ctxTag ++ kv.1, kv.2))
    ∧ fanout_cast_msg_update ctxt msg
        = msg ++ ctxt.fields.map (fun kv => (ctxTag ++ kv.1, kv.2))
    ∧ multicall_msg_update i ctxt msg
        = (msg ++ [(msgIdKey, Value.str i)])
            ++ ctxt.fields.map (fun kv => (ctxTag ++ kv.1, kv.2))
    ∧ (ctxt.fields ≠ [] → cast_msg_update ctxt msg ≠ msg)
    ∧ multicall_msg_update i ctxt msg ≠ msg := by
  have hpack : _pack_context msg ctxt
      = msg ++ ctxt.fields.map (fun kv => (ctxTag ++ kv.1, kv.2)) :=
    pack_context_fresh msg ctxt (fun kv h => (hmsg kv h).1) hnd
  have hupd : dictUpdate msg [(msgIdKey, Value.str i)]
      = msg ++ [(msgIdKey, Value.str i)] := by
    apply dictUpdate_fresh
    · intro kv hkv kv2 hkv2
      have : kv = (msgIdKey, Value.str i) := by simpa using hkv
      subst this
      exact (hmsg kv2 hkv2).2
    · simp
  have hpack2 : multicall_msg_update i ctxt msg
      = (msg ++ [(msgIdKey, Value.str i)])
          ++ ctxt.fields.map (fun kv => (ctxTag ++ kv.1, kv.2)) := by
    unfold multicall_msg_update
    rw [hupd]
    apply pack_context_fresh _ ctxt _ hnd
    intro kv hkv
    rcases List.mem_append.mp hkv with h | h
    · exact (hmsg kv h).1
    · have : kv = (msgIdKey, Value.str i) := by simpa using h
      subst this
      exact (by decide : ctxTag.isPrefixOf msgIdKey = false)
  refine ⟨hpack, hpack, hpack2, ?_, ?_⟩
  · intro hne heq
    unfold cast_msg_update at heq
    rw [hpack] at heq
    have hl := congrArg List.length heq
    rw [List.length_append, List.length_map] at hl
    have : ctxt.fields.length ≠ 0 := fun h0 => hne (List.length_eq_zero.mp h0)
    omega
  · intro heq
    rw [hpack2] at heq
    have hl := congrArg List.length heq
    rw [List.length_append, List.length_append, List.length_map] at hl
    simp at hl
    omega

/-- Witness for C10: a concrete message mapping and context. -/
theorem c10_client_verbs_mutate_msg_witness :
    multicall_msg_update ("abc".data)
        ⟨Value.null, [(("user".data : Str), Value.str ("u1".data))]⟩
        [(("method".data : Str), Value.str ("echo".data))]
      ≠ [(("method".data : Str), Value.str ("echo".data))] :=
  (c10_client_verbs_mutate_msg _ _ _ (by decide) (by decide)).2.2.2.2

/-! Helper lemmas about the reply stream. -/

theorem flatten_map_reply (ctxt : RpcContext) (htr : truthy ctxt.msg_id = true)
    (items : List Value) :
    (items.map (fun x => ctxt.reply x none)).flatten
      = items.map (fun x => (ctxt.msg_id, (⟨x, none⟩ : ReplyEnvelope))) := by
  induction items with
  | nil => rfl
  | cons v rest ih =>
    rw [List.map_cons, List.flatten_cons, ih]
    simp [RpcContext.reply, if_pos htr, msgReplyEnvelope]

/-- C1: for every dispatched request carrying a `_msg_id`, the worker
invocation emits exactly this reply sequence on that msg_id: a generator
result emits `reply(item, null)` per yielded item then the
`reply(null, null)` terminator; a plain result emits `reply(value, null)`
then the terminator; a raising method emits the single
`reply(null, (kind, str, traceback))` failure with no terminator. -/
theorem c1_worker_reply_sequence (ctxt : RpcContext) (id : Str)
    (hid : ctxt.msg_id = Value.str id) (hne : id ≠ []) :
    (∀ items : List Value, ProxyCallback._process_data ctxt (.gen items none)
        = items.map (fun x => (Value.str id, (⟨x, none⟩ : ReplyEnvelope)))
          ++ [(Value.str id, (⟨Value.null, none⟩ : ReplyEnvelope))])
    ∧ (∀ v : Value, ProxyCallback._process_data ctxt (.plain v)
        = [(Value.str id, (⟨v, none⟩ : ReplyEnvelope)),
           (Value.str id, (⟨Value.null, none⟩ : ReplyEnvelope))])
    ∧ (∀ e : PyException, ProxyCallback._process_data ctxt (.raises e)
        = [(Value.str id,
            (⟨Value.null, some ⟨e.typeName, e.strForm, e.formattedTb⟩⟩ : ReplyEnvelope))]) := by
  have htr : truthy (Value.str id) = true := by
    cases id with
    | nil => exact absurd rfl hne
    | cons c cs => rfl
  have htr0 : truthy ctxt.msg_id = true := by rw [hid]; exact htr
  refine ⟨?_, ?_, ?_⟩
  · intro items
    simp only [ProxyCallback._process_data]
    rw [flatten_map_reply ctxt htr0 items]
    simp [RpcContext.reply, hid, htr, msgReplyEnvelope]
  · intro v
    simp [ProxyCallback._process_data, RpcContext.reply, htr, hid, msgReplyEnvelope]
  · intro e
    simp [ProxyCallback._process_data, RpcContext.reply, htr, hid, msgReplyEnvelope,
      marshalFailure]

/-- Witness for C1: the reply stream of a concrete plain-value handler. -/
theorem c1_worker_reply_sequence_witness :
    ProxyCallback._process_data ⟨Value.str ("m".data), []⟩ (.plain (Value.int 5))
      = [(Value.str ("m".data), (⟨Value.int 5, none⟩ : ReplyEnvelope)),
         (Value.str ("m".data), (⟨Value.null, none⟩ : ReplyEnvelope))] :=
  (c1_worker_reply_sequence ⟨Value.str ("m".data), []⟩ ("m".data) rfl (by decide)).2.1
    (Value.int 5)

/-! Helper lemmas about multicall client iteration. -/

theorem consYield_isDone (v : Value) (o : MulticallOutcome) :
    (o.consYield v).isDone = o.isDone := by
  cases o <;> rfl

theorem iterate_cons_yield (v : Value) (rest : List ReplyEnvelope)
    (hv : v ≠ Value.null) :
    MulticallWaiter.iterate ((⟨v, none⟩ : ReplyEnvelope) :: rest)
      = (MulticallWaiter.iterate rest).consYield v := by
  simp [MulticallWaiter.iterate, MulticallWaiter.storeResult, if_neg hv]

theorem iterate_map_terminator (items : List Value) (hnn : Value.null ∉ items) :
    MulticallWaiter.iterate
        (items.map (fun x => (⟨x, none⟩ : ReplyEnvelope))
          ++ [(⟨Value.null, none⟩ : ReplyEnvelope)])
      = .ended items := by
  induction items with
  | nil => rfl
  | cons v rest ih =>
    have hv : v ≠ Value.null := fun h => hnn (h ▸ List.mem_cons_self v rest)
    have ih2 := ih (fun h => hnn (List.mem_cons_of_mem v h))
    rw [List.map_cons, List.cons_append, iterate_cons_yield v _ hv, ih2]
    rfl

/-- C2: client-side multicall iteration terminates iff a received reply
envelope is the terminator `{result: null, failure: null}` or carries a
non-null failure; a non-null failure makes it mark itself done and raise
the remote error built from the marshalled `(kind, message, traceback)`;
the terminator makes it mark itself done and end the sequence; any other
reply is yielded and iteration continues. -/
theorem c2_multicall_termination (msgs : List ReplyEnvelope) :
    ((MulticallWaiter.iterate msgs).isDone = true
        ↔ ∃ data ∈ msgs, isTerminator data = true ∨ data.failure ≠ none)
    ∧ (∀ (r : Value) (f : Failure) (rest : List ReplyEnvelope),
        MulticallWaiter.iterate (⟨r, some f⟩ :: rest)
          = .failed [] ⟨f.kind, f.message, f.tb⟩)
    ∧ (∀ rest : List ReplyEnvelope,
        MulticallWaiter.iterate (⟨Value.null, none⟩ :: rest) = .ended [])
    ∧ (∀ (v : Value) (rest : List ReplyEnvelope), v ≠ Value.null →
        MulticallWaiter.iterate (⟨v, none⟩ :: rest)
          = (MulticallWaiter.iterate rest).consYield v) := by
  refine ⟨?_, ?_, ?_, ?_⟩
  · induction msgs with
    | nil => simp [MulticallWaiter.iterate, MulticallOutcome.isDone]
    | cons data rest ih =>
      obtain ⟨r, f⟩ := data
      cases f with
      | some f0 =>
        simp [MulticallWaiter.iterate, MulticallWaiter.storeResult,
          MulticallOutcome.isDone]
      | none =>
        by_cases hr : r = Value.null
        · subst hr
          simp [MulticallWaiter.iterate, MulticallWaiter.storeResult,
            MulticallOutcome.isDone, isTerminator]
        · simp only [MulticallWaiter.iterate, MulticallWaiter.storeResult,
            if_neg hr, consYield_isDone, ih]
          constructor
          · intro ⟨data, hmem, hp⟩
            exact ⟨data, List.mem_cons_of_mem _ hmem, hp⟩
          · intro ⟨data, hmem, hp⟩
            rcases List.mem_cons.mp hmem with heq | hmem2
            · subst heq
              rcases hp with hterm | hfail
              · simp [isTerminator, hr] at hterm
              · simp at hfail
            · exact ⟨data, hmem2, hp⟩
  · intro r f rest
    rfl
  · intro rest
    rfl
  · intro v rest hv
    simp [MulticallWaiter.iterate, MulticallWaiter.storeResult, if_neg hv]

/-- Witness for C2: a non-terminator reply is yielded and iteration
continues over the rest of the stream. -/
theorem c2_multicall_termination_witness :
    MulticallWaiter.iterate
        [(⟨Value.int 1, none⟩ : ReplyEnvelope), (⟨Value.null, none⟩ : ReplyEnvelope)]
      = (MulticallWaiter.iterate [(⟨Value.null, none⟩ : ReplyEnvelope)]).consYield
          (Value.int 1) :=
  (c2_multicall_termination []).2.2.2 (Value.int 1)
    [(⟨Value.null, none⟩ : ReplyEnvelope)] (by decide)

theorem process_gen_envelopes (ctxt : RpcContext) (htr : truthy ctxt.msg_id = true)
    (items : List Value) :
    (ProxyCallback._process_data ctxt (.gen items none)).map Prod.snd
      = items.map (fun x => (⟨x, none⟩ : ReplyEnvelope))
        ++ [(⟨Value.null, none⟩ : ReplyEnvelope)] := by
  simp only [ProxyCallback._process_data]
  rw [flatten_map_reply ctxt htr items]
  simp [RpcContext.reply, htr, msgReplyEnvelope, List.map_map, List.map_append]

/-- C3 counterexample: against a handler lazily yielding `1, None, 3`
(a lazy sequence of length 3), `call` returns the first value `1`, not
the last value `3`: the `None` item is indistinguishable on the wire from
the stream terminator and ends client iteration early. -/
theorem c3_call_last_value_cex :
    call ((ProxyCallback._process_data ⟨Value.str ("m".data), []⟩
        (.gen [Value.int 1, Value.null, Value.int 3] none)).map Prod.snd)
      = .returned (Value.int 1)
    ∧ call ((ProxyCallback._process_data ⟨Value.str ("m".data), []⟩
        (.gen [Value.int 1, Value.null, Value.int 3] none)).map Prod.snd)
      ≠ .returned (Value.int 3) := by
  decide

/-- C3 (amended): `call` fully drains the multicall sequence and returns
its last non-terminator reply — for a handler returning a lazy sequence
of length N *containing no null values* it returns the N-th (last) value,
and for an empty drained sequence it returns a null value.  (A null item
in the sequence is wire-identical to the terminator and ends the client
stream early, so it is excluded.) -/
theorem c3_call_returns_last (ctxt : RpcContext) (id : Str)
    (hid : ctxt.msg_id = Value.str id) (hne : id ≠ [])
    (items : List Value) (hnn : Value.null ∉ items) :
    call ((ProxyCallback._process_data ctxt (.gen items none)).map Prod.snd)
      = .returned (items.getLast?.getD Value.null) := by
  have htr0 : truthy ctxt.msg_id = true := by
    rw [hid]
    cases id with
    | nil => exact absurd rfl hne
    | cons c cs => rfl
  rw [process_gen_envelopes ctxt htr0 items]
  unfold call
  rw [iterate_map_terminator items hnn]

/-- Witness for C3 (amended): a concrete two-element stream. -/
theorem c3_call_returns_last_witness :
    call ((ProxyCallback._process_data ⟨Value.str ("m".data), []⟩
        (.gen [Value.int 1, Value.int 2] none)).map Prod.snd)
      = .returned (Value.int 2) :=
  c3_call_returns_last ⟨Value.str ("m".data), []⟩ ("m".data) rfl (by decide)
    [Value.int 1, Value.int 2] (by decide)

/-- C4: for every message delivered to a consumer, the broker
acknowledgement is sent iff the user callback returns normally: the
delivery wrapper invokes the callback on the decoded payload (and
propagates its outcome unchanged, so an exception reaches the channel),
acking as the last step only on normal return. -/
theorem c4_ack_iff_callback_ok {α : Type} (decode : α → KombuMessage)
    (cb : Value → Except PyException Unit) (raw : α) :
    ((QueueBase.consume_deliver decode cb raw).2 = true
        ↔ cb (decode raw).payload = .ok ())
    ∧ (QueueBase.consume_deliver decode cb raw).1 = cb (decode raw).payload := by
  simp only [QueueBase.consume_deliver]
  cases h : cb (decode raw).payload with
  | ok u => cases u; simp
  | error e => simp

/-- Witness for C4: a callback that returns normally gets its message
acked. -/
theorem c4_ack_iff_callback_ok_witness :
    (QueueBase.consume_deliver (fun v : Value => (⟨v⟩ : KombuMessage))
        (fun _ => Except.ok ()) Value.null).2 = true :=
  (c4_ack_iff_callback_ok (fun v : Value => (⟨v⟩ : KombuMessage))
    (fun _ => Except.ok ()) Value.null).1.mpr rfl

/-- C7: on every scope exit path of a holding `ConnectionContext` —
normal or error unwind — the held connection is released exactly once: a
pooled handle resets it (fresh channel, cleared consumer list) and pushes
it back on the pool, a non-pooled handle closes it and the pool is
untouched, the handle afterwards holds nothing, and a second exit is a
no-op. -/
theorem c7_connection_context_release (k : ExitKind) (self : ConnectionContext)
    (pool : List KConnection) (c : KConnection) (h : self.connection = some c) :
    (self.scopeExit k pool).ctx.connection = none
    ∧ (self.pooled = true →
        (self.scopeExit k pool).pool = KConnection.reset c :: pool
        ∧ (KConnection.reset c).consumers = []
        ∧ (KConnection.reset c).channelGen = c.channelGen + 1
        ∧ (self.scopeExit k pool).disposed = none)
    ∧ (self.pooled = false →
        (self.scopeExit k pool).pool = pool
        ∧ (self.scopeExit k pool).disposed = some (KConnection.closeConn c)
        ∧ (KConnection.closeConn c).released = true)
    ∧ (∀ (k2 : ExitKind) (pool2 : List KConnection),
        (self.scopeExit k pool).ctx.scopeExit k2 pool2
          = ⟨(self.scopeExit k pool).ctx, pool2, none⟩) := by
  cases hp : self.pooled <;>
    simp [ConnectionContext.scopeExit, ConnectionContext._done, h, hp,
      KConnection.reset, KConnection.closeConn]

/-- Witness for C7: a concrete pooled handle exits its scope and holds
nothing afterwards. -/
theorem c7_connection_context_release_witness :
    ((⟨some ⟨3, [7], false⟩, true⟩ : ConnectionContext).scopeExit ExitKind.normal
        []).ctx.connection = none :=
  (c7_connection_context_release ExitKind.normal ⟨some ⟨3, [7], false⟩, true⟩ []
    ⟨3, [7], false⟩ rfl).1

/-- C8 (code defect): for a reply value the wire codec cannot encode,
`msg_reply` does not fall back to the shallow stringification — the `try`
covers only the dict-literal construction, which can never raise
`TypeError` (third conjunct), so the non-encodable reply reaches
`conn.direct_send` outside the `try` and the serialization error
propagates (first conjunct), even though the intended fallback payload
would have been encodable (second conjunct). -/
theorem c8_msg_reply_fallback_unreachable :
    msg_reply (Value.str ("m".data)) (Value.obj [(("a".data : Str), Scalar.int 1)]) none
      = .error .serializationError
    ∧ serializable (shallowStringify
        (Value.obj [(("a".data : Str), Scalar.int 1)])) = true
    ∧ (∀ (reply : Value) (failure : Option Failure),
        tryBuildEnvelope reply failure = .ok ⟨reply, failure⟩) :=
  ⟨rfl, rfl, fun _ _ => rfl⟩

/-- C9: invoking `consume` on a connection whose live-consumer list is
empty and driving the returned generator raises `IndexError` (from
`self.queues[-1]` on the empty list) instead of yielding any event, for
every `limit` and every stream of drain outcomes. -/
theorem c9_consume_empty_consumer_list {α : Type} (limit : Option Int)
    (outs : List DrainOutcome) :
    Connection.consume ([] : List α) limit outs = .error .indexError := rfl

/-! Helper lemmas about the drain loop. -/

theorem limitTruthy_some_pos (n : Int) (hn : 0 < n) : limitTruthy (some n) = true := by
  simp [limitTruthy]
  omega

theorem consumeLoop_all_ev (n : Int) (hn : 0 < n) :
    ∀ (outs : List DrainOutcome) (iteration : Int) (yields : Nat),
      (∀ o ∈ outs, o = DrainOutcome.ev) → 0 ≤ iteration → iteration ≤ n →
      (n - iteration).toNat ≤ outs.length →
      consumeLoop (some n) outs iteration yields
        = .terminated (yields + (n - iteration).toNat) := by
  intro outs
  induction outs with
  | nil =>
    intro iteration yields _ h0 hle hlen
    have hin : iteration = n := by
      simp only [List.length_nil, Nat.le_zero] at hlen
      omega
    rw [consumeLoop.eq_def,
      if_pos ⟨limitTruthy_some_pos n hn, by simp only [limitVal]; omega⟩]
    congr 1
    omega
  | cons o rest ih =>
    intro iteration yields hall h0 hle hlen
    have ho : o = DrainOutcome.ev := hall o (List.mem_cons_self o rest)
    subst ho
    by_cases hit : iteration = n
    · rw [consumeLoop.eq_def,
        if_pos ⟨limitTruthy_some_pos n hn, by simp only [limitVal]; omega⟩]
      congr 1
      omega
    · have hlt : iteration < n := lt_of_le_of_ne hle hit
      rw [consumeLoop.eq_def, if_neg]
      · show consumeLoop (some n) rest (iteration + 1) (yields + 1) = _
        rw [ih (iteration + 1) (yields + 1)
          (fun o2 h2 => hall o2 (List.mem_cons_of_mem _ h2)) (by omega) (by omega)
          (by simp only [List.length_cons] at hlen; omega)]
        congr 1
        omega
      · intro hcon
        have := hcon.2
        simp only [limitVal] at this
        omega

theorem consumeLoop_terminated_truthy (limit : Option Int) :
    ∀ (outs : List DrainOutcome) (iteration : Int) (yields : Nat),
      (consumeLoop limit outs iteration yields).isTerminated = true →
      limitTruthy limit = true := by
  intro outs
  induction outs with
  | nil =>
    intro iteration yields h
    rw [consumeLoop.eq_def] at h
    by_cases hc : limitTruthy limit = true ∧ limitVal limit ≤ iteration
    · exact hc.1
    · rw [if_neg hc] at h
      exact absurd h (by simp [ConsumeResult.isTerminated])
  | cons o rest ih =>
    intro iteration yields h
    rw [consumeLoop.eq_def] at h
    by_cases hc : limitTruthy limit = true ∧ limitVal limit ≤ iteration
    · exact hc.1
    · rw [if_neg hc] at h
      cases o with
      | ev => exact ih (iteration + 1) (yields + 1) h
      | err => exact ih 0 yields h

/-- C6 counterexample: with one live consumer and `limit = 0` supplied to
`consume`, the sequence does not terminate after `0` drains — `0` is
falsy, so the stop guard never fires: two event drains in, the loop is
still pending. -/
theorem c6_consume_limit_zero_cex :
    Connection.consume [()] (some 0) [DrainOutcome.ev, DrainOutcome.ev]
      = .ok (.pending 2)
    ∧ (consumeLoop (some 0) [DrainOutcome.ev, DrainOutcome.ev] 0 0).isTerminated
      = false :=
  ⟨rfl, rfl⟩

/-- C6 (amended): for a connection with at least one live consumer, if a
*truthy (nonzero)* limit is supplied to `consume` the yielded sequence
terminates after exactly `limit` error-free drains; and whenever the
limit is absent or falsy (`None` or `0`) the drain loop never terminates
on its own, so the sequence is finite only when a nonzero limit is set. -/
theorem c6_consume_limit_termination {α : Type} (queues : List α) (hq : queues ≠ [])
    (n : Int) (hn : 0 < n) (outs : List DrainOutcome)
    (hall : ∀ o ∈ outs, o = DrainOutcome.ev) (hlen : n.toNat ≤ outs.length) :
    Connection.consume queues (some n) outs = .ok (.terminated n.toNat)
    ∧ (∀ (limit : Option Int) (outs2 : List DrainOutcome) (iteration : Int)
        (yields : Nat), limitTruthy limit = false →
        (consumeLoop limit outs2 iteration yields).isTerminated = false) := by
  constructor
  · unfold Connection.consume
    rw [if_neg (by simpa using hq)]
    congr 1
    rw [consumeLoop_all_ev n hn outs 0 0 hall (le_refl 0) (by omega) (by omega)]
    congr 1
    omega
  · intro limit outs2 iteration yields hfalse
    cases hterm : (consumeLoop limit outs2 iteration yields).isTerminated with
    | false => rfl
    | true =>
      exact absurd (consumeLoop_terminated_truthy limit outs2 iteration yields hterm)
        (by simp [hfalse])

/-- Witness for C6 (amended): limit 2 over three event drains terminates
after exactly 2 yields. -/
theorem c6_consume_limit_termination_witness :
    Connection.consume [()] (some 2)
        [DrainOutcome.ev, DrainOutcome.ev, DrainOutcome.ev]
      = .ok (.terminated 2) :=
  (c6_consume_limit_termination [()] (by decide) 2 (by decide)
    [DrainOutcome.ev, DrainOutcome.ev, DrainOutcome.ev] (by decide) (by decide)).1

end ImplKombu
